import Mathlib

/-!
Shallow embedding of `src/lib/issue-bot.js` (the issue-bot orchestration
script) and proofs about it.

Modelling conventions, used throughout:
* JavaScript primitive values that flow through loosely typed positions are
  modelled by `JsVal` (undefined, booleans, numbers as `Int`, strings).
  Truthiness (`!!v`, `if (v)`) is `truthy`.
* `undefined` in an `Option`-shaped position is `none`; a JS number variable
  that may be `undefined` is `Option Int`.
* Every awaited network operation of the script is recorded as a `Call` in an
  observable trace; a thrown JS exception is `Except.error` carrying the
  error's description.  The orchestrator `run` is total: its `catch` block is
  the bridge from `Except.error` to the `RunOutcome.failed` outcome, so no
  exception escapes `run`.
* Object mutation (only exercised by `removeEmptyProps` inside
  `createNewIssue`) is modelled by an explicit store of objects addressed by
  references (`Store`), mirroring the JS heap.
-/

/-- A JavaScript primitive value, as far as this script observes them. -/
inductive JsVal : Type
  | vundef : JsVal
  | vbool : Bool → JsVal
  | vnum : Int → JsVal
  | vstr : String → JsVal
deriving DecidableEq

/-- JS truthiness: `!!v`.  (`undefined`, `false`, `0`, `""` are falsy.) -/
def truthy : JsVal → Bool
  | JsVal.vundef => false
  | JsVal.vbool b => b
  | JsVal.vnum n => decide (n ≠ 0)
  | JsVal.vstr s => decide (s ≠ "")

/-- A JS object, as an ordered list of own properties (keys are unique in any
object the script builds, but nothing here relies on that). -/
def JsObject : Type := List (String × JsVal)

/-- `removeEmptyProps` from the source: deletes every key bound to `''` or to
`undefined`, keeps everything else in order.  The source mutates its argument
in place and returns it; this is the resulting object value (the in-place
aspect is modelled by `removeEmptyPropsRef` below). -/
def removeEmptyProps : List (String × JsVal) → List (String × JsVal)
  | [] => []
  | (key, v) :: rest =>
    if v = JsVal.vstr "" ∨ v = JsVal.vundef then removeEmptyProps rest
    else (key, v) :: removeEmptyProps rest

/-- `needPreviousIssue(...conditions)` from the source:
`conditions.includes(true)`.  `Array.includes` compares with SameValueZero,
i.e. strict equality on these values, so only the boolean `true` counts. -/
def needPreviousIssue (conditions : List JsVal) : Bool :=
  decide (JsVal.vbool true ∈ conditions)

/-- `issueExists(previousIssueNumber)` from the source:
`previousIssueNumber >= 0`.  The argument is a JS number or `undefined`
(`undefined >= 0` is false in JS, since the comparison with NaN fails). -/
def issueExists (previousIssueNumber : Option Int) : Bool :=
  match previousIssueNumber with
  | some n => decide (0 ≤ n)
  | none => false

/-- The inputs record as `checkInputs` sees it (all fields are raw JS
values). -/
structure ActionInputs : Type where
  title : JsVal
  labels : JsVal
  assignees : JsVal
  pinned : JsVal
  closePrevious : JsVal
  linkedComments : JsVal
  rotateAssignees : JsVal
deriving DecidableEq

/-- `checkInputs(inputs)` from the source, faithfully including the fact that
each `if` REASSIGNS `ok` (`ok = ...`) instead of conjoining (`ok = ok && ...`):
a later applicable rule overwrites the result of the title check. -/
def checkInputs (inputs : ActionInputs) : Bool :=
  let ok := truthy inputs.title
  let ok := if truthy inputs.pinned then truthy inputs.labels else ok
  let ok := if truthy inputs.closePrevious then truthy inputs.labels else ok
  let ok := if truthy inputs.linkedComments then truthy inputs.labels else ok
  let ok := if truthy inputs.rotateAssignees then
              truthy inputs.labels && truthy inputs.assignees
            else ok
  ok

/-- JS `Array.prototype.indexOf(x)` on an array of strings: the first index
whose element is strictly equal to `x`, or `-1`. -/
def jsArrIndexOf (x : String) : List String → Int
  | [] => -1
  | a :: rest =>
    if a = x then 0
    else
      let r := jsArrIndexOf x rest
      if r < 0 then -1 else r + 1

/-- `assignees.indexOf(previousAssignee)` where `previousAssignee` may be
`undefined`: `indexOf(undefined)` on an array of strings is `-1`. -/
def jsIndexOfOpt (assignees : List String) : Option String → Int
  | some p => jsArrIndexOf p assignees
  | none => -1

/-- `getNextAssignee(assignees, previousAssignee)` from the source:
`index = (assignees.indexOf(previousAssignee) + 1) % assignees.length`,
returning `[assignees[index]]`.  The dividend `indexOf + 1` is never negative,
so JS `%` (truncating remainder) agrees with `Int.emod` here; out-of-range
indexing yields `undefined`, i.e. `none`. -/
def getNextAssignee (assignees : List String) (previousAssignee : Option String) :
    List (Option String) :=
  let index := (jsIndexOfOpt assignees previousAssignee + 1) % (assignees.length : Int)
  [assignees.get? index.toNat]

/-- One node of the GraphQL pinned-issues response (`{ issue: { id } }`). -/
structure PinnedIssueRef : Type where
  id : String
deriving DecidableEq

/-- `pinnedIssue.issue` wrapper of the GraphQL response shape. -/
structure PinnedNode : Type where
  issue : PinnedIssueRef
deriving DecidableEq

/-- `resource.pinnedIssues` of the GraphQL response; `nodes` may be absent. -/
structure PinnedIssues : Type where
  nodes : Option (List PinnedNode)
deriving DecidableEq

/-- `resource` of the GraphQL response, when it resolves. -/
structure PinnedResource : Type where
  pinnedIssues : PinnedIssues
deriving DecidableEq

/-- The whole GraphQL response of the pinned-issues query; `resource` is
`none` when the repository resource cannot be resolved. -/
structure IsPinnedResponse : Type where
  resource : Option PinnedResource
deriving DecidableEq

/-- JS `Array.prototype.findIndex(p)`: first index satisfying `p`, or `-1`. -/
def jsFindIndex {α : Type} (p : α → Bool) : List α → Int
  | [] => -1
  | a :: rest =>
    if p a then 0
    else
      let r := jsFindIndex p rest
      if r < 0 then -1 else r + 1

/-- `isPinned(issueId)` from the source, as a pure function of the GraphQL
response `data`: false if `data.resource` is absent, otherwise
`pinnedIssues.findIndex(pinnedIssue => pinnedIssue.issue.id === issueId) >= 0`
over `data.resource.pinnedIssues.nodes || []`. -/
def isPinned (issueId : String) (data : IsPinnedResponse) : Bool :=
  match data.resource with
  | none => false
  | some r =>
    let pinnedIssues := r.pinnedIssues.nodes.getD []
    decide (0 ≤ jsFindIndex (fun pinnedIssue => pinnedIssue.issue.id == issueId) pinnedIssues)

/-- One entry of an issue's assignee list (`{ login }`). -/
structure Assignee : Type where
  login : String
deriving DecidableEq

/-- The first element of `octokit.issues.listForRepo(...).data`, when present. -/
structure PrevIssueData : Type where
  number : Int
  node_id : String
  assignees : List Assignee
deriving DecidableEq

/-- The record returned by `getPreviousIssue`.  In the source,
`previousIssueNodeId` is `undefined` and `previousAssignees` is `''` when no
issue matched; those absent values are modelled as `""` and `[]` (the only
reachable observation of them is `previousAssignees.length`, which agrees). -/
structure PrevResult : Type where
  previousIssueNumber : Option Int
  previousIssueNodeId : String
  previousAssignees : List Assignee
deriving DecidableEq

/-- The destructured result of `octokit.issues.create`. -/
structure CreateData : Type where
  number : Int
  id : Int
  node_id : String
deriving DecidableEq

/-- A repository project, as far as `addIssueToProjectColumn` reads it. -/
structure Project : Type where
  number : Int
  id : Int
deriving DecidableEq

/-- A project column, as far as `addIssueToProjectColumn` reads it. -/
structure ProjColumn : Type where
  name : String
  id : Int
deriving DecidableEq

/-- One observable awaited operation of the script (network call or the
`setOutput` host call).  Issue numbers that may be `undefined` in JS are
`Option Int`. -/
inductive Call : Type
  | listIssues (labels : String)
  | createIssue (title : JsVal) (labels : String) (assignees : List (Option String)) (body : String)
  | listProjects
  | listColumns (projectId : Int)
  | createCard (columnId : Int) (contentId : Int)
  | updateMilestone (issueNumber : Int) (milestone : Int)
  | createComment (issueNumber : Option Int) (body : String)
  | closeIssue (issueNumber : Option Int)
  | queryPinned
  | unpinIssue (nodeId : String)
  | pinIssue (nodeId : String)
  | setOutput (value : String)
deriving DecidableEq

/-- The calls the close/unpin/pin tail of `run` consists of. -/
def isSeqCall : Call → Bool
  | Call.closeIssue _ => true
  | Call.unpinIssue _ => true
  | Call.pinIssue _ => true
  | _ => false

/-- The environment: the response (or thrown error, as `Except.error` with the
error's description) of each external collaborator the script awaits.
`render` is the handlebars template application
`handlebars.compile(body)({previousIssueNumber, assignees})`. -/
structure Env : Type where
  listIssuesResp : Except String (Option PrevIssueData)
  render : String → Option Int → List (Option String) → String
  createResp : Except String CreateData
  listProjectsResp : Except String (List Project)
  listColumnsResp : Int → Except String (List ProjColumn)
  createCardResp : Except String Unit
  milestoneResp : Except String Bool
  commentResp1 : Except String Unit
  commentResp2 : Except String Unit
  closeResp : Except String Unit
  pinnedQueryResp : Except String IsPinnedResponse
  unpinResp : Except String Unit
  pinResp : Except String Unit

/-- A finished awaited computation: the trace of calls it performed, and its
result or the description of the exception it threw. -/
abbrev M (α : Type) : Type := List Call × Except String α

/-- A computation that performs no call and returns. -/
def mpure {α : Type} (a : α) : M α := ([], Except.ok a)

/-- Sequencing of awaited computations: a thrown exception short-circuits, so
no later call is performed. -/
def mbind {α β : Type} (m : M α) (f : α → M β) : M β :=
  match m.2 with
  | Except.ok a => (m.1 ++ (f a).1, (f a).2)
  | Except.error e => (m.1, Except.error e)

/-- The inputs record as `run` sees it.  The four feature flags are raw JS
values (the action host may hand over non-boolean values); `project`, `column`
and `milestone` are `none` when not configured. -/
structure RunInputs : Type where
  title : JsVal
  body : String
  labels : String
  assignees : List String
  pinned : JsVal
  closePrevious : JsVal
  linkedComments : JsVal
  rotateAssignees : JsVal
  project : Option Int
  column : Option String
  milestone : Option Int

/-- `getPreviousIssue(labels)` from the source: one `listForRepo` call; takes
`data[0]`; `previousIssueNumber` is `Number(data.number)` when `data.number`
is truthy, else `undefined`; a miss is non-fatal (a warning only). -/
def getPreviousIssueStep (env : Env) (labels : String) : M PrevResult :=
  ([Call.listIssues labels],
    match env.listIssuesResp with
    | Except.error e => Except.error e
    | Except.ok od =>
      Except.ok (match od with
        | some d =>
          { previousIssueNumber := if d.number = 0 then none else some d.number
            previousIssueNodeId := d.node_id
            previousAssignees := d.assignees }
        | none =>
          { previousIssueNumber := none
            previousIssueNodeId := ""
            previousAssignees := [] }))

/-- The `run`-local state before any lookup: `previousIssueNumber = -1`,
node id and assignee list not yet set. -/
def defaultPrev : PrevResult :=
  { previousIssueNumber := some (-1), previousIssueNodeId := "", previousAssignees := [] }

/-- The `octokit.issues.create` call of `createNewIssue(options)`.  The
trace records the title/labels/assignees/body the script passes; the
empty-field stripping of the options record is modelled by
`createNewIssuePrep` below (it does not change which call is made). -/
def createStep (env : Env) (title : JsVal) (labels : String)
    (assignees : List (Option String)) (body : String) : M CreateData :=
  ([Call.createIssue title labels assignees body], env.createResp)

/-- `addIssueToProjectColumn(issueId, projectNumber, columnName)` from the
source: list projects, find by number (a miss warns and returns), list the
project's columns, find by name (a miss warns and returns), create a card. -/
def addIssueToProjectColumn (env : Env) (issueId : Int) (projectNumber : Int)
    (columnName : String) : M Unit :=
  mbind ([Call.listProjects], env.listProjectsResp) (fun projects =>
    match projects.find? (fun project => project.number == projectNumber) with
    | none => mpure ()
    | some project =>
      mbind ([Call.listColumns project.id], env.listColumnsResp project.id) (fun columns =>
        match columns.find? (fun column => column.name == columnName) with
        | none => mpure ()
        | some column =>
          mbind ([Call.createCard column.id issueId], env.createCardResp) (fun _ => mpure ())))

/-- `addIssueToMilestone(issueNumber, milestoneNumber)` from the source: one
issue update; an empty result only warns. -/
def addIssueToMilestone (env : Env) (issueNumber : Int) (milestoneNumber : Int) : M Unit :=
  ([Call.updateMilestone issueNumber milestoneNumber],
    match env.milestoneResp with
    | Except.error e => Except.error e
    | Except.ok _ => Except.ok ())

/-- How a JS template literal renders a number-or-undefined. -/
def jsShowOptInt : Option Int → String
  | none => "undefined"
  | some n => toString n

/-- `makeLinkedComments(newIssueNumber, previousIssueNumber)` from the source:
two independent comment creations, new-side first. -/
def makeLinkedComments (env : Env) (newIssueNumber : Int) (previousIssueNumber : Option Int) :
    M Unit :=
  mbind ([Call.createComment (some newIssueNumber)
            ("Previous in series: #" ++ jsShowOptInt previousIssueNumber)],
         env.commentResp1) (fun _ =>
    mbind ([Call.createComment previousIssueNumber
              ("Next in series: #" ++ toString newIssueNumber)],
           env.commentResp2) (fun _ => mpure ()))

/-- `closeIssue(issueNumber)` from the source: one issue update to closed. -/
def closeIssueStep (env : Env) (issueNumber : Option Int) : M Unit :=
  ([Call.closeIssue issueNumber], env.closeResp)

/-- The awaited `isPinned(issueId)`: one GraphQL query, then the pure
`isPinned` predicate on its response. -/
def isPinnedStep (env : Env) (issueId : String) : M Bool :=
  ([Call.queryPinned],
    match env.pinnedQueryResp with
    | Except.error e => Except.error e
    | Except.ok data => Except.ok (isPinned issueId data))

/-- `unpin(issueId)` from the source: no-op unless currently pinned, else the
unpin mutation. -/
def unpinStep (env : Env) (issueId : String) : M Unit :=
  mbind (isPinnedStep env issueId) (fun b =>
    if b then ([Call.unpinIssue issueId], env.unpinResp) else mpure ())

/-- `pin(issueId)` from the source: the pin mutation, unconditionally. -/
def pinStep (env : Env) (issueId : String) : M Unit :=
  ([Call.pinIssue issueId], env.pinResp)

/-- `run`, step 5: `if (inputs.project && inputs.column)` attach to the
project column. -/
def projectStep (inputs : RunInputs) (env : Env) (issueId : Int) : M Unit :=
  match inputs.project, inputs.column with
  | some p, some c => addIssueToProjectColumn env issueId p c
  | _, _ => mpure ()

/-- `run`, step 6: `if (inputs.milestone)` attach to the milestone. -/
def milestoneStep (inputs : RunInputs) (env : Env) (issueNumber : Int) : M Unit :=
  match inputs.milestone with
  | some m => addIssueToMilestone env issueNumber m
  | none => mpure ()

/-- `run`, step 7: linked comments when a previous issue exists and
`linkedComments` is truthy. -/
def commentsStep (inputs : RunInputs) (env : Env) (newNumber : Int)
    (prevNumber : Option Int) : M Unit :=
  if issueExists prevNumber && truthy inputs.linkedComments then
    makeLinkedComments env newNumber prevNumber
  else mpure ()

/-- `run`, step 8: when a previous issue exists and `closePrevious` is truthy,
close it; if additionally `pinned` is truthy, unpin the previous node id and
pin the new node id, in that order. -/
def closePinStep (inputs : RunInputs) (env : Env) (prevNumber : Option Int)
    (prevNodeId : String) (newNodeId : String) : M Unit :=
  if issueExists prevNumber && truthy inputs.closePrevious then
    mbind (closeIssueStep env prevNumber) (fun _ =>
      if truthy inputs.pinned then
        mbind (unpinStep env prevNodeId) (fun _ => pinStep env newNodeId)
      else mpure ())
  else mpure ()

/-- `run`, step 9: `if (newIssueNumber)` emit the output (0 is falsy). -/
def outputStep (newNumber : Int) : M Unit :=
  if newNumber = 0 then mpure ()
  else ([Call.setOutput (toString newNumber)], Except.ok ())

/-- The body of `run` (everything inside the `try`): lookup when needed,
assignee rotation, body rendering, creation, and the conditional
project/milestone/comments/close/pin/output tail, in source order. -/
def runBody (inputs : RunInputs) (env : Env) : M Unit :=
  mbind (if needPreviousIssue [inputs.pinned, inputs.closePrevious,
                               inputs.rotateAssignees, inputs.linkedComments]
         then getPreviousIssueStep env inputs.labels
         else mpure defaultPrev) (fun prev =>
    let sentAssignees : List (Option String) :=
      if issueExists prev.previousIssueNumber && truthy inputs.rotateAssignees then
        getNextAssignee inputs.assignees
          (match prev.previousAssignees with
           | a :: _ => some a.login
           | [] => none)
      else inputs.assignees.map some
    let renderedBody := env.render inputs.body prev.previousIssueNumber sentAssignees
    mbind (createStep env inputs.title inputs.labels sentAssignees renderedBody) (fun cd =>
      mbind (projectStep inputs env cd.id) (fun _ =>
        mbind (milestoneStep inputs env cd.number) (fun _ =>
          mbind (commentsStep inputs env cd.number prev.previousIssueNumber) (fun _ =>
            mbind (closePinStep inputs env prev.previousIssueNumber
                     prev.previousIssueNodeId cd.node_id) (fun _ =>
              outputStep cd.number))))))

/-- The observable outcome of one `run` invocation. -/
inductive RunOutcome : Type
  | completed
  | failed (msg : String)
deriving DecidableEq

/-- `run(inputs)` from the source: the body in a `try`; the `catch` turns any
thrown error into `core.setFailed` with the message
`Error encountered: ${error}.` and returns normally (the exception never
escapes `run`). -/
def run (inputs : RunInputs) (env : Env) : List Call × RunOutcome :=
  match runBody inputs env with
  | (t, Except.ok _) => (t, RunOutcome.completed)
  | (t, Except.error e) => (t, RunOutcome.failed ("Error encountered: " ++ e ++ "."))

/-- A heap of JS objects: references are indices below `next`. -/
structure Store : Type where
  objs : Nat → JsObject
  next : Nat

/-- Allocation of a fresh object (`Object.assign({}, source)` allocates and
copies the own properties of `source`). -/
def alloc (s : Store) (o : JsObject) : Nat × Store :=
  (s.next, { objs := fun i => if i = s.next then o else s.objs i, next := s.next + 1 })

/-- In-place overwrite of the object a reference points at. -/
def writeRef (r : Nat) (v : JsObject) (s : Store) : Store :=
  { objs := fun i => if i = r then v else s.objs i, next := s.next }

/-- `removeEmptyProps(obj)` as the source runs it: mutates the referenced
object in place and returns the same reference. -/
def removeEmptyPropsRef (r : Nat) (s : Store) : Nat × Store :=
  (r, writeRef r (removeEmptyProps (s.objs r)) s)

/-- The options preprocessing of `createNewIssue(options)`:
`options = removeEmptyProps(Object.assign({}, options))` — copy first, then
strip the copy in place; the caller's object is never touched. -/
def createNewIssuePrep (r : Nat) (s : Store) : Nat × Store :=
  let copied := alloc s (s.objs r)
  removeEmptyPropsRef copied.1 copied.2

/-- A previous-issue record used to instantiate the theorems below. -/
def samplePrevData : PrevIssueData :=
  { number := 10, node_id := "N10", assignees := [{ login := "alice" }] }

/-- A create-response record used to instantiate the theorems below. -/
def sampleCreateData : CreateData :=
  { number := 20, id := 777, node_id := "N20" }

/-- A pinned-issues response in which "N10" is pinned. -/
def samplePinnedResp : IsPinnedResponse :=
  { resource := some { pinnedIssues := { nodes := some [{ issue := { id := "N10" } }] } } }

/-- A pinned-issues response whose repository resource does not resolve. -/
def respNoResource : IsPinnedResponse := { resource := none }

/-- A fully successful environment used to instantiate the theorems below. -/
def sampleEnv : Env :=
  { listIssuesResp := Except.ok (some samplePrevData)
    render := fun _ _ _ => "rendered"
    createResp := Except.ok sampleCreateData
    listProjectsResp := Except.ok []
    listColumnsResp := fun _ => Except.ok []
    createCardResp := Except.ok ()
    milestoneResp := Except.ok true
    commentResp1 := Except.ok ()
    commentResp2 := Except.ok ()
    closeResp := Except.ok ()
    pinnedQueryResp := Except.ok samplePinnedResp
    unpinResp := Except.ok ()
    pinResp := Except.ok () }

/-- An environment in which the issue-creation call throws. -/
def failEnv : Env := { sampleEnv with createResp := Except.error "boom" }

/-- Inputs with close-previous and pinning enabled. -/
def sampleInputs : RunInputs :=
  { title := JsVal.vstr "Title"
    body := "b"
    labels := "recurring"
    assignees := ["alice", "bob"]
    pinned := JsVal.vbool true
    closePrevious := JsVal.vbool true
    linkedComments := JsVal.vundef
    rotateAssignees := JsVal.vundef
    project := none
    column := none
    milestone := none }

/-- Inputs with every feature flag left unset. -/
def quietInputs : RunInputs :=
  { sampleInputs with
    pinned := JsVal.vundef
    closePrevious := JsVal.vundef
    linkedComments := JsVal.vundef
    rotateAssignees := JsVal.vundef }

/-- Inputs whose flags are truthy but not the boolean `true`. -/
def truthyStringInputs : RunInputs :=
  { sampleInputs with
    pinned := JsVal.vstr "true"
    closePrevious := JsVal.vnum 1
    linkedComments := JsVal.vbool false
    rotateAssignees := JsVal.vundef }

/-- A two-object heap used to instantiate the frame theorem below. -/
def sampleStore : Store :=
  { objs := fun _ => [("a", JsVal.vstr ""), ("b", JsVal.vstr "x")], next := 1 }

/-- Sequencing with a completed first computation: the traces concatenate. -/
theorem mbind_ok_eq {α β : Type} (t : List Call) (a : α) (f : α → M β) :
    mbind (t, Except.ok a) f = (t ++ (f a).1, (f a).2) := rfl

/-- Sequencing with a throwing first computation: nothing further runs. -/
theorem mbind_error_eq {α β : Type} (t : List Call) (e : String) (f : α → M β) :
    mbind (t, Except.error e) f = (t, Except.error e) := rfl

/-- The catch block of `run` does not change which calls were performed. -/
theorem run_fst (inputs : RunInputs) (env : Env) :
    (run inputs env).1 = (runBody inputs env).1 := by
  unfold run
  rcases h : runBody inputs env with ⟨t, r⟩
  cases r <;> rfl

/-- C1: the spec claims `checkInputs` returns false whenever `title` is empty,
regardless of the other fields ("all rules must pass").  The code instead
REASSIGNS `ok` in each rule, so a later applicable rule overwrites the title
check: with an empty title, `pinned` set and non-empty `labels`, `checkInputs`
returns `true`. -/
theorem checkInputs_empty_title_overwritten :
    checkInputs
      { title := JsVal.vstr "", labels := JsVal.vstr "recurring",
        assignees := JsVal.vundef, pinned := JsVal.vbool true,
        closePrevious := JsVal.vundef, linkedComments := JsVal.vundef,
        rotateAssignees := JsVal.vundef } = true := by decide

/-- C3: `issueExists n` is true exactly when `n` is a number that is at least
0; in particular it is false at `-1` and false at `undefined`. -/
theorem issueExists_iff_nonneg :
    (∀ n : Option Int, issueExists n = true ↔ ∃ v : Int, n = some v ∧ 0 ≤ v) ∧
    issueExists (some (-1)) = false ∧ issueExists none = false := by
  refine ⟨fun n => ?_, by decide, rfl⟩
  cases n with
  | none => simp [issueExists]
  | some v => simp [issueExists]

/-- C3 instantiation: `issueExists` holds at the concrete number 5. -/
theorem issueExists_iff_nonneg_attestation : issueExists (some 5) = true :=
  (issueExists_iff_nonneg.1 (some 5)).mpr ⟨5, rfl, by decide⟩

/-- C4: `removeEmptyProps {a: '', b: 'x', c: undefined}` is exactly
`{b: 'x'}`; in general a key/value pair survives iff it was present and its
value is neither the empty string nor undefined. -/
theorem removeEmptyProps_round_trip :
    removeEmptyProps [("a", JsVal.vstr ""), ("b", JsVal.vstr "x"), ("c", JsVal.vundef)] =
      [("b", JsVal.vstr "x")] ∧
    ∀ (obj : List (String × JsVal)) (k : String) (v : JsVal),
      ((k, v) ∈ removeEmptyProps obj ↔
        (k, v) ∈ obj ∧ v ≠ JsVal.vstr "" ∧ v ≠ JsVal.vundef) := by
  refine ⟨by decide, fun obj k v => ?_⟩
  induction obj with
  | nil => simp [removeEmptyProps]
  | cons kv rest ih =>
    obtain ⟨k2, v2⟩ := kv
    by_cases h : v2 = JsVal.vstr "" ∨ v2 = JsVal.vundef
    · rw [removeEmptyProps, if_pos h, ih]
      constructor
      · rintro ⟨hm, hc⟩
        exact ⟨List.mem_cons_of_mem _ hm, hc⟩
      · rintro ⟨hor, hc1, hc2⟩
        rcases List.mem_cons.mp hor with heq | hm
        · rcases Prod.mk.injEq .. ▸ heq with ⟨-, rfl⟩
          rcases h with h | h
          · exact absurd h hc1
          · exact absurd h hc2
        · exact ⟨hm, hc1, hc2⟩
    · push_neg at h
      rw [removeEmptyProps, if_neg (by push_neg; exact h)]
      constructor
      · intro hm
        rcases List.mem_cons.mp hm with heq | hm2
        · rcases Prod.mk.injEq .. ▸ heq with ⟨rfl, rfl⟩
          exact ⟨List.mem_cons_self _ _, h.1, h.2⟩
        · rcases (ih.mp hm2) with ⟨hm3, hc⟩
          exact ⟨List.mem_cons_of_mem _ hm3, hc⟩
      · rintro ⟨hor, hc1, hc2⟩
        rcases List.mem_cons.mp hor with heq | hm
        · rcases Prod.mk.injEq .. ▸ heq with ⟨rfl, rfl⟩
          exact List.mem_cons_self _ _
        · exact List.mem_cons_of_mem _ (ih.mpr ⟨hm, hc1, hc2⟩)

/-- C4 instantiation: the kept pair of the round-trip object is a member. -/
theorem removeEmptyProps_round_trip_attestation :
    ("b", JsVal.vstr "x") ∈ removeEmptyProps [("b", JsVal.vstr "x")] :=
  (removeEmptyProps_round_trip.2 [("b", JsVal.vstr "x")] "b" (JsVal.vstr "x")).mpr
    ⟨List.mem_cons_self _ _, by decide, by decide⟩

/-- `indexOf` on a missing element is `-1`. -/
theorem jsArrIndexOf_of_not_mem {p : String} {A : List String} (h : p ∉ A) :
    jsArrIndexOf p A = -1 := by
  induction A with
  | nil => rfl
  | cons a rest ih =>
    have h1 : a ≠ p := fun e => h (by simp [e])
    have h2 : p ∉ rest := fun m => h (List.mem_cons_of_mem _ m)
    rw [jsArrIndexOf]
    simp [h1, ih h2]

/-- `indexOf` on a present element agrees with `List.indexOf`. -/
theorem jsArrIndexOf_of_mem {p : String} {A : List String} (h : p ∈ A) :
    jsArrIndexOf p A = (A.indexOf p : Int) := by
  induction A with
  | nil => exact absurd h (List.not_mem_nil p)
  | cons a rest ih =>
    by_cases he : a = p
    · subst he
      rw [jsArrIndexOf]
      simp [List.indexOf_cons_self]
    · have hm : p ∈ rest := by
        rcases List.mem_cons.mp h with h1 | h1
        · exact absurd h1.symm he
        · exact h1
      have hnn : (0 : Int) ≤ (rest.indexOf p : Int) := Int.natCast_nonneg _
      rw [jsArrIndexOf]
      simp only [if_neg he, ih hm]
      rw [if_neg (not_lt.mpr hnn), List.indexOf_cons_ne _ (by simpa using he)]
      push_cast
      ring

/-- C2: for every non-empty assignee list `A` and any previous assignee `P`,
`getNextAssignee A P` is a one-element list whose element is
`A[(indexOf(A, P) + 1) mod length A]`; in particular when `P` does not occur
in `A` (or is absent) the result is the singleton `[A[0]]`. -/
theorem getNextAssignee_round_robin :
    ∀ (A : List String) (P : Option String) (h' : A ≠ []),
      (getNextAssignee A P).length = 1 ∧
      (∀ p, P = some p → p ∈ A →
        getNextAssignee A P =
          [some (A.get ⟨(A.indexOf p + 1) % A.length,
                        Nat.mod_lt _ (List.length_pos.mpr h')⟩)]) ∧
      ((P = none ∨ ∀ p, P = some p → p ∉ A) →
        getNextAssignee A P = [some (A.head h')]) := by
  intro A P h'
  refine ⟨rfl, ?_, ?_⟩
  · rintro p rfl hmem
    have hlt : A.indexOf p < A.length := List.indexOf_lt_length.mpr hmem
    rw [getNextAssignee]
    simp only [jsIndexOfOpt, jsArrIndexOf_of_mem hmem]
    have hcast : (((A.indexOf p : Int) + 1) % (A.length : Int)).toNat =
        (A.indexOf p + 1) % A.length := by
      have h1 : ((A.indexOf p : Int) + 1) = ((A.indexOf p + 1 : Nat) : Int) := by
        push_cast
        ring
      rw [h1, ← Int.natCast_mod, Int.toNat_natCast]
    rw [hcast, List.get?_eq_get (Nat.mod_lt _ (List.length_pos.mpr h'))]
  · intro habs
    have hidx : jsIndexOfOpt A P = -1 := by
      cases P with
      | none => rfl
      | some p =>
        rcases habs with h | h
        · exact absurd h (by simp)
        · exact jsArrIndexOf_of_not_mem (h p rfl)
    rw [getNextAssignee, hidx]
    cases A with
    | nil => exact absurd rfl h'
    | cons a rest => simp [List.head]

/-- C2 instantiation: rotating `["alice", "bob"]` past "alice" yields "bob". -/
theorem getNextAssignee_round_robin_attestation :
    getNextAssignee ["alice", "bob"] (some "alice") = [some "bob"] := by
  have h := (getNextAssignee_round_robin ["alice", "bob"] (some "alice")
    (by simp)).2.1 "alice" rfl (by simp)
  simpa using h

/-- `findIndex(p) >= 0` exactly when some element satisfies `p`. -/
theorem jsFindIndex_nonneg_iff {α : Type} (p : α → Bool) (l : List α) :
    0 ≤ jsFindIndex p l ↔ ∃ x ∈ l, p x = true := by
  induction l with
  | nil => simp [jsFindIndex]
  | cons a rest ih =>
    by_cases h : p a
    · simp [jsFindIndex, h]
    · rw [jsFindIndex]
      simp only [h, if_false, Bool.false_eq_true]
      rcases lt_or_le (jsFindIndex p rest) 0 with hlt | hle
      · rw [if_pos hlt]
        simp only [List.mem_cons]
        constructor
        · intro habs; omega
        · rintro ⟨x, hx | hx, hpx⟩
          · exact absurd (hx ▸ hpx) (by simp [h])
          · exact absurd (ih.mpr ⟨x, hx, hpx⟩) (not_le.mpr hlt)
      · rw [if_neg (not_lt.mpr hle)]
        have hex := ih.mp hle
        rcases hex with ⟨x, hx, hpx⟩
        constructor
        · intro _; exact ⟨x, List.mem_cons_of_mem _ hx, hpx⟩
        · intro _; omega

/-- C5: `isPinned issueId` holds exactly when `issueId` is the id of some node
of the pinned-issues list of the response, and is false whenever the
repository resource is absent. -/
theorem isPinned_iff_member :
    ∀ (issueId : String) (data : IsPinnedResponse),
      (isPinned issueId data = true ↔
        ∃ r, data.resource = some r ∧
          ∃ node ∈ r.pinnedIssues.nodes.getD [], node.issue.id = issueId) ∧
      (data.resource = none → isPinned issueId data = false) := by
  intro issueId data
  cases hres : data.resource with
  | none =>
    constructor
    · simp [isPinned, hres]
    · intro _; simp [isPinned, hres]
  | some r =>
    constructor
    · rw [isPinned, hres]
      simp only [decide_eq_true_eq, jsFindIndex_nonneg_iff]
      constructor
      · rintro ⟨node, hnode, hid⟩
        exact ⟨r, rfl, node, hnode, by simpa using hid⟩
      · rintro ⟨r2, hr2, node, hnode, hid⟩
        rcases Option.some.injEq .. ▸ hr2 with rfl
        exact ⟨node, hnode, by simpa using hid⟩
    · intro h; exact absurd h (by simp)

/-- C5 instantiation: an unresolvable repository resource yields false. -/
theorem isPinned_iff_member_attestation :
    isPinned "ID1" respNoResource = false :=
  (isPinned_iff_member "ID1" respNoResource).2 rfl

/-- Membership in a sequenced trace comes from one of the two parts. -/
theorem mem_mbind_fst {α β : Type} {c : Call} {m : M α} {f : α → M β} :
    c ∈ (mbind m f).1 ↔ c ∈ m.1 ∨ ∃ a, m.2 = Except.ok a ∧ c ∈ (f a).1 := by
  rcases m with ⟨t, r⟩
  cases r with
  | ok a => simp [mbind]
  | error e => simp [mbind]

/-- A call absent from both parts is absent from the sequenced trace. -/
theorem not_mem_mbind {α β : Type} {c : Call} {m : M α} {f : α → M β}
    (h1 : c ∉ m.1) (h2 : ∀ a, c ∉ (f a).1) : c ∉ (mbind m f).1 := by
  intro hmem
  rcases mem_mbind_fst.mp hmem with h | ⟨a, -, h⟩
  · exact h1 h
  · exact h2 a h

/-- A filter that drops both parts drops the sequenced trace. -/
theorem filter_mbind_nil {α β : Type} {q : Call → Bool} {m : M α} {f : α → M β}
    (h1 : m.1.filter q = []) (h2 : ∀ a, ((f a).1).filter q = []) :
    ((mbind m f).1).filter q = [] := by
  rcases m with ⟨t, r⟩
  cases r with
  | ok a => simp only [mbind]; simp only at h1; simp [List.filter_append, h1, h2]
  | error e => simpa [mbind] using h1

/-- The previous-issue lookup performs no close/unpin/pin call. -/
theorem seqFilter_getPrev (env : Env) (l : String) :
    ((getPreviousIssueStep env l).1).filter isSeqCall = [] := rfl

/-- Issue creation performs no close/unpin/pin call. -/
theorem seqFilter_create (env : Env) (t : JsVal) (l : String)
    (a : List (Option String)) (b : String) :
    ((createStep env t l a b).1).filter isSeqCall = [] := rfl

/-- Project attachment performs no close/unpin/pin call. -/
theorem seqFilter_addProj (env : Env) (i p : Int) (c : String) :
    ((addIssueToProjectColumn env i p c).1).filter isSeqCall = [] := by
  unfold addIssueToProjectColumn
  refine filter_mbind_nil ?_ ?_
  · rfl
  intro projects
  cases projects.find? (fun project => project.number == p) with
  | none => rfl
  | some project =>
    refine filter_mbind_nil ?_ ?_
    · rfl
    intro columns
    cases columns.find? (fun column => column.name == c) with
    | none => rfl
    | some column =>
      refine filter_mbind_nil ?_ ?_
      · rfl
      intro _
      rfl

/-- The project step performs no close/unpin/pin call. -/
theorem seqFilter_proj (inputs : RunInputs) (env : Env) (i : Int) :
    ((projectStep inputs env i).1).filter isSeqCall = [] := by
  unfold projectStep
  cases inputs.project with
  | none => rfl
  | some p =>
    cases inputs.column with
    | none => rfl
    | some c => exact seqFilter_addProj env i p c

/-- The milestone step performs no close/unpin/pin call. -/
theorem seqFilter_mile (inputs : RunInputs) (env : Env) (n : Int) :
    ((milestoneStep inputs env n).1).filter isSeqCall = [] := by
  unfold milestoneStep
  cases inputs.milestone <;> rfl

/-- The linked-comments step performs no close/unpin/pin call. -/
theorem seqFilter_comments (inputs : RunInputs) (env : Env) (n : Int)
    (pn : Option Int) :
    ((commentsStep inputs env n pn).1).filter isSeqCall = [] := by
  unfold commentsStep
  split
  · refine filter_mbind_nil ?_ ?_
    · rfl
    intro _
    refine filter_mbind_nil ?_ ?_
    · rfl
    intro _
    rfl
  · rfl

/-- The output step performs no close/unpin/pin call. -/
theorem seqFilter_output (n : Int) :
    ((outputStep n).1).filter isSeqCall = [] := by
  unfold outputStep
  split <;> rfl

/-- Issue creation performs no previous-issue lookup. -/
theorem listIssues_not_mem_create (env : Env) (t : JsVal) (l : String)
    (a : List (Option String)) (b : String) (l2 : String) :
    Call.listIssues l2 ∉ ((createStep env t l a b).1) := by
  simp [createStep]

/-- Project attachment performs no previous-issue lookup. -/
theorem listIssues_not_mem_addProj (env : Env) (i p : Int) (c : String) (l2 : String) :
    Call.listIssues l2 ∉ (addIssueToProjectColumn env i p c).1 := by
  unfold addIssueToProjectColumn
  refine not_mem_mbind ?_ ?_
  · simp
  intro projects
  cases projects.find? (fun project => project.number == p) with
  | none => simp [mpure]
  | some project =>
    refine not_mem_mbind ?_ ?_
    · simp
    intro columns
    cases columns.find? (fun column => column.name == c) with
    | none => simp [mpure]
    | some column =>
      refine not_mem_mbind ?_ ?_
      · simp
      intro _
      simp [mpure]

/-- The project step performs no previous-issue lookup. -/
theorem listIssues_not_mem_proj (inputs : RunInputs) (env : Env) (i : Int) (l2 : String) :
    Call.listIssues l2 ∉ (projectStep inputs env i).1 := by
  unfold projectStep
  cases inputs.project with
  | none => simp [mpure]
  | some p =>
    cases inputs.column with
    | none => simp [mpure]
    | some c => exact listIssues_not_mem_addProj env i p c l2

/-- The milestone step performs no previous-issue lookup. -/
theorem listIssues_not_mem_mile (inputs : RunInputs) (env : Env) (n : Int) (l2 : String) :
    Call.listIssues l2 ∉ (milestoneStep inputs env n).1 := by
  unfold milestoneStep
  cases inputs.milestone <;> simp [mpure, addIssueToMilestone]

/-- The linked-comments step performs no previous-issue lookup. -/
theorem listIssues_not_mem_comments (inputs : RunInputs) (env : Env) (n : Int)
    (pn : Option Int) (l2 : String) :
    Call.listIssues l2 ∉ (commentsStep inputs env n pn).1 := by
  unfold commentsStep
  split
  · refine not_mem_mbind ?_ ?_
    · simp
    intro _
    refine not_mem_mbind ?_ ?_
    · simp
    intro _
    simp [mpure]
  · simp [mpure]

/-- The close/unpin/pin step performs no previous-issue lookup. -/
theorem listIssues_not_mem_closePin (inputs : RunInputs) (env : Env) (pn : Option Int)
    (pnode nnode : String) (l2 : String) :
    Call.listIssues l2 ∉ (closePinStep inputs env pn pnode nnode).1 := by
  unfold closePinStep
  split
  · refine not_mem_mbind ?_ ?_
    · simp [closeIssueStep]
    intro _
    split
    · refine not_mem_mbind ?_ ?_
      · refine not_mem_mbind ?_ ?_
        · simp [isPinnedStep]
        intro b
        cases b <;> simp [mpure]
      intro _
      simp [pinStep]
    · simp [mpure]
  · simp [mpure]

/-- The output step performs no previous-issue lookup. -/
theorem listIssues_not_mem_output (n : Int) (l2 : String) :
    Call.listIssues l2 ∉ (outputStep n).1 := by
  unfold outputStep
  split <;> simp [mpure]

/-- When no feature flag is the boolean `true`, `run` performs no
previous-issue lookup at all. -/
theorem no_lookup_of_not_need (inputs : RunInputs) (env : Env)
    (h : needPreviousIssue [inputs.pinned, inputs.closePrevious,
           inputs.rotateAssignees, inputs.linkedComments] = false) :
    ∀ l, Call.listIssues l ∉ (run inputs env).1 := by
  intro l
  rw [run_fst]
  unfold runBody
  rw [h]
  simp only [Bool.false_eq_true, if_false, mpure, mbind_ok_eq, List.nil_append]
  refine not_mem_mbind (listIssues_not_mem_create _ _ _ _ _ _) ?_
  intro cd
  refine not_mem_mbind (listIssues_not_mem_proj _ _ _ _) ?_
  intro _
  refine not_mem_mbind (listIssues_not_mem_mile _ _ _ _) ?_
  intro _
  refine not_mem_mbind (listIssues_not_mem_comments _ _ _ _ _) ?_
  intro _
  refine not_mem_mbind (listIssues_not_mem_closePin _ _ _ _ _ _) ?_
  intro _
  exact listIssues_not_mem_output _ _

/-- When some feature flag is the boolean `true`, the lookup is performed
(first), whatever its outcome. -/
theorem lookup_head_of_need (inputs : RunInputs) (env : Env)
    (h : needPreviousIssue [inputs.pinned, inputs.closePrevious,
           inputs.rotateAssignees, inputs.linkedComments] = true) :
    Call.listIssues inputs.labels ∈ (run inputs env).1 := by
  rw [run_fst]
  unfold runBody
  rw [h]
  simp only [if_true]
  unfold getPreviousIssueStep
  cases env.listIssuesResp <;> simp [mbind]

/-- C7: `run` performs the previous-issue lookup exactly when at least one of
the four feature flags is set (is the boolean `true`); when none is, no
previous-issue query is made at all. -/
theorem run_lookup_iff_flag_set :
    ∀ (inputs : RunInputs) (env : Env),
      ((∃ l, Call.listIssues l ∈ (run inputs env).1) ↔
        (inputs.pinned = JsVal.vbool true ∨ inputs.closePrevious = JsVal.vbool true ∨
         inputs.rotateAssignees = JsVal.vbool true ∨
         inputs.linkedComments = JsVal.vbool true)) ∧
      (needPreviousIssue [inputs.pinned, inputs.closePrevious,
          inputs.rotateAssignees, inputs.linkedComments] = false →
        ∀ l, Call.listIssues l ∉ (run inputs env).1) := by
  intro inputs env
  have hiff : needPreviousIssue [inputs.pinned, inputs.closePrevious,
      inputs.rotateAssignees, inputs.linkedComments] = true ↔
      (inputs.pinned = JsVal.vbool true ∨ inputs.closePrevious = JsVal.vbool true ∨
       inputs.rotateAssignees = JsVal.vbool true ∨
       inputs.linkedComments = JsVal.vbool true) := by
    simp only [needPreviousIssue, decide_eq_true_eq, List.mem_cons,
      List.not_mem_nil, or_false]
    constructor
    · rintro (h | h | h | h)
      exacts [Or.inl h.symm, Or.inr (Or.inl h.symm),
        Or.inr (Or.inr (Or.inl h.symm)), Or.inr (Or.inr (Or.inr h.symm))]
    · rintro (h | h | h | h)
      exacts [Or.inl h.symm, Or.inr (Or.inl h.symm),
        Or.inr (Or.inr (Or.inl h.symm)), Or.inr (Or.inr (Or.inr h.symm))]
  constructor
  · constructor
    · rintro ⟨l, hl⟩
      by_contra hnot
      have hfalse : needPreviousIssue [inputs.pinned, inputs.closePrevious,
          inputs.rotateAssignees, inputs.linkedComments] = false := by
        cases h : needPreviousIssue [inputs.pinned, inputs.closePrevious,
            inputs.rotateAssignees, inputs.linkedComments] with
        | false => rfl
        | true => exact absurd (hiff.mp h) hnot
      exact absurd hl (no_lookup_of_not_need inputs env hfalse l)
    · intro hdisj
      exact ⟨inputs.labels, lookup_head_of_need inputs env (hiff.mpr hdisj)⟩
  · intro h l
    exact no_lookup_of_not_need inputs env h l

/-- C7 instantiation: with every flag unset, the lookup is skipped. -/
theorem run_lookup_iff_flag_set_attestation :
    Call.listIssues "recurring" ∉ (run quietInputs sampleEnv).1 :=
  (run_lookup_iff_flag_set quietInputs sampleEnv).2 (by decide) "recurring"

/-- C9: `needPreviousIssue` is true exactly when some argument is strictly the
boolean `true`; truthy non-boolean values (the string "true", the number 1) do
not count, and a run configured with such values skips the previous-issue
lookup. -/
theorem needPreviousIssue_strictness :
    (∀ conditions : List JsVal,
      needPreviousIssue conditions = true ↔ JsVal.vbool true ∈ conditions) ∧
    needPreviousIssue [JsVal.vstr "true", JsVal.vnum 1,
      JsVal.vbool false, JsVal.vundef] = false ∧
    (∀ (inputs : RunInputs) (env : Env),
      inputs.pinned = JsVal.vstr "true" →
      inputs.closePrevious = JsVal.vnum 1 →
      inputs.linkedComments = JsVal.vbool false →
      inputs.rotateAssignees = JsVal.vundef →
      ∀ l, Call.listIssues l ∉ (run inputs env).1) := by
  refine ⟨fun conditions => by simp [needPreviousIssue], by decide, ?_⟩
  intro inputs env h1 h2 h3 h4 l
  refine no_lookup_of_not_need inputs env ?_ l
  rw [h1, h2, h3, h4]
  decide

/-- C9 instantiation: flags that are truthy but not `true` skip the lookup. -/
theorem needPreviousIssue_strictness_attestation :
    Call.listIssues "recurring" ∉ (run truthyStringInputs sampleEnv).1 :=
  needPreviousIssue_strictness.2.2 truthyStringInputs sampleEnv rfl rfl rfl rfl "recurring"

/-- The catch block turns a thrown error into the failed outcome, keeping the
trace of the calls already performed. -/
theorem run_eq_of_error (inputs : RunInputs) (env : Env) (e : String)
    (h : (runBody inputs env).2 = Except.error e) :
    run inputs env = ((runBody inputs env).1,
      RunOutcome.failed ("Error encountered: " ++ e ++ ".")) := by
  unfold run
  rcases hrb : runBody inputs env with ⟨t, r⟩
  rw [hrb] at h
  simp only at h
  subst h
  rfl

/-- C8: a thrown exception at any step aborts the remaining steps and is
reported, through the catch block, as the run's single failure message;
`run` itself returns normally (it is a total function of the environment).
Instantiated for a throwing issue-creation call: afterwards the trace holds
nothing but the lookup and the creation attempt — no project, milestone,
comment, close, pin or output step ran. -/
theorem run_error_aborts :
    (∀ (inputs : RunInputs) (env : Env) (e : String),
      (runBody inputs env).2 = Except.error e →
      run inputs env = ((runBody inputs env).1,
        RunOutcome.failed ("Error encountered: " ++ e ++ "."))) ∧
    (∀ (inputs : RunInputs) (env : Env) (e : String) (od : Option PrevIssueData),
      env.listIssuesResp = Except.ok od →
      env.createResp = Except.error e →
      (run inputs env).2 = RunOutcome.failed ("Error encountered: " ++ e ++ ".") ∧
      ∀ c ∈ (run inputs env).1,
        c = Call.listIssues inputs.labels ∨
        ∃ t l a b, c = Call.createIssue t l a b) := by
  refine ⟨run_eq_of_error, ?_⟩
  intro inputs env e od hli hcr
  cases hneed : needPreviousIssue [inputs.pinned, inputs.closePrevious,
      inputs.rotateAssignees, inputs.linkedComments] with
  | true =>
    have h2 : (runBody inputs env).2 = Except.error e := by
      unfold runBody getPreviousIssueStep createStep
      rw [hneed, hli, hcr]
      simp [mbind]
    have hmem : ∀ c ∈ (runBody inputs env).1,
        c = Call.listIssues inputs.labels ∨
        ∃ t l a b, c = Call.createIssue t l a b := by
      intro c hc
      unfold runBody getPreviousIssueStep createStep at hc
      rw [hneed, hli, hcr] at hc
      simp [mbind] at hc
      rcases hc with rfl | rfl
      · exact Or.inl rfl
      · exact Or.inr ⟨_, _, _, _, rfl⟩
    have hrun := run_eq_of_error inputs env e h2
    constructor
    · rw [hrun]
    · rw [hrun]
      exact fun c hc => hmem c hc
  | false =>
    have h2 : (runBody inputs env).2 = Except.error e := by
      unfold runBody createStep
      rw [hneed, hcr]
      simp [mbind, mpure]
    have hmem : ∀ c ∈ (runBody inputs env).1,
        c = Call.listIssues inputs.labels ∨
        ∃ t l a b, c = Call.createIssue t l a b := by
      intro c hc
      unfold runBody createStep at hc
      rw [hneed, hcr] at hc
      simp [mbind, mpure] at hc
      subst hc
      exact Or.inr ⟨_, _, _, _, rfl⟩
    have hrun := run_eq_of_error inputs env e h2
    constructor
    · rw [hrun]
    · rw [hrun]
      exact fun c hc => hmem c hc

/-- C8 instantiation: a throwing creation call yields the failed outcome with
the error's description. -/
theorem run_error_aborts_attestation :
    (run sampleInputs failEnv).2 = RunOutcome.failed "Error encountered: boom." :=
  (run_error_aborts.2 sampleInputs failEnv "boom" (some samplePrevData) rfl rfl).1

/-- The output step always completes. -/
theorem outputStep_snd (n : Int) : (outputStep n).2 = Except.ok () := by
  unfold outputStep
  split <;> rfl

/-- C6: in a successful run with an existing previous issue and both
`closePrevious` and `pinned` set, the close/unpin/pin calls of the whole run
are exactly: close the previous issue by number, then (conditional on the
`isPinned` query) unpin the previous node id, then pin the new node id, in
that order. -/
theorem run_close_unpin_pin_order :
    ∀ (inputs : RunInputs) (env : Env) (d : PrevIssueData) (cd : CreateData)
      (pq : IsPinnedResponse),
      inputs.closePrevious = JsVal.vbool true →
      inputs.pinned = JsVal.vbool true →
      env.listIssuesResp = Except.ok (some d) →
      0 < d.number →
      env.createResp = Except.ok cd →
      (projectStep inputs env cd.id).2 = Except.ok () →
      (milestoneStep inputs env cd.number).2 = Except.ok () →
      (commentsStep inputs env cd.number (some d.number)).2 = Except.ok () →
      env.closeResp = Except.ok () →
      env.pinnedQueryResp = Except.ok pq →
      env.unpinResp = Except.ok () →
      env.pinResp = Except.ok () →
      ((run inputs env).1.filter isSeqCall =
        [Call.closeIssue (some d.number)] ++
        (if isPinned d.node_id pq then [Call.unpinIssue d.node_id] else []) ++
        [Call.pinIssue cd.node_id]) ∧
      (run inputs env).2 = RunOutcome.completed := by
  intro inputs env d cd pq hclose hpin hli hd hcr hproj hmile hcomm hcl hpq hup hpp
  rcases hps : projectStep inputs env cd.id with ⟨tp, rp⟩
  rw [hps] at hproj
  simp only at hproj
  subst hproj
  rcases hms : milestoneStep inputs env cd.number with ⟨tm, rm⟩
  rw [hms] at hmile
  simp only at hmile
  subst hmile
  rcases hcs : commentsStep inputs env cd.number (some d.number) with ⟨tc, rc⟩
  rw [hcs] at hcomm
  simp only at hcomm
  subst hcomm
  have hneed : needPreviousIssue [inputs.pinned, inputs.closePrevious,
      inputs.rotateAssignees, inputs.linkedComments] = true := by
    rw [hclose]
    simp [needPreviousIssue]
  have hnz : ¬ d.number = 0 := by omega
  have hex : issueExists (some d.number) = true := by
    simp only [issueExists, decide_eq_true_eq]
    omega
  have htruthyClose : truthy inputs.closePrevious = true := by rw [hclose]; rfl
  have htruthyPin : truthy inputs.pinned = true := by rw [hpin]; rfl
  have htp : tp.filter isSeqCall = [] := by
    have h := seqFilter_proj inputs env cd.id
    rw [hps] at h
    exact h
  have htm : tm.filter isSeqCall = [] := by
    have h := seqFilter_mile inputs env cd.number
    rw [hms] at h
    exact h
  have htc : tc.filter isSeqCall = [] := by
    have h := seqFilter_comments inputs env cd.number (some d.number)
    rw [hcs] at h
    exact h
  constructor
  · cases hb : isPinned d.node_id pq <;>
    · rw [run_fst]
      unfold runBody getPreviousIssueStep createStep closePinStep closeIssueStep
        unpinStep isPinnedStep pinStep
      simp [mbind, mpure, hneed, hli, hnz, hcr, hps, hms, hcs, hex, htruthyClose,
        htruthyPin, hcl, hpq, hup, hpp, hb, htp, htm, htc, List.filter_append,
        isSeqCall, seqFilter_output]
  · have h2 : (runBody inputs env).2 = Except.ok () := by
      unfold runBody getPreviousIssueStep createStep closePinStep closeIssueStep
        unpinStep isPinnedStep pinStep
      cases hb : isPinned d.node_id pq <;>
        simp [mbind, mpure, hneed, hli, hnz, hcr, hps, hms, hcs, hex,
          htruthyClose, htruthyPin, hcl, hpq, hup, hpp, hb, outputStep_snd]
    unfold run
    rcases hrb : runBody inputs env with ⟨t, r⟩
    rw [hrb] at h2
    simp only at h2
    subst h2
    rfl

/-- C6 instantiation: close(10), unpin("N10"), pin("N20") in that order. -/
theorem run_close_unpin_pin_order_attestation :
    (run sampleInputs sampleEnv).1.filter isSeqCall =
      [Call.closeIssue (some 10), Call.unpinIssue "N10", Call.pinIssue "N20"] := by
  have h := (run_close_unpin_pin_order sampleInputs sampleEnv samplePrevData
    sampleCreateData samplePinnedResp rfl rfl rfl (by decide) rfl rfl rfl rfl
    rfl rfl rfl rfl).1
  exact h.trans (by decide)

/-- C10: `createNewIssue` strips empty fields from a fresh shallow copy only:
after the call the caller's options object is unchanged, the stripped object
is a different reference, and it holds the stripped copy of the caller's
object. -/
theorem createNewIssuePrep_frame :
    ∀ (s : Store) (r : Nat), r < s.next →
      ((createNewIssuePrep r s).2.objs r = s.objs r ∧
       (createNewIssuePrep r s).1 ≠ r ∧
       (createNewIssuePrep r s).2.objs (createNewIssuePrep r s).1 =
         removeEmptyProps (s.objs r)) := by
  intro s r h
  have hne : r ≠ s.next := Nat.ne_of_lt h
  refine ⟨?_, ?_, ?_⟩
  · simp [createNewIssuePrep, alloc, removeEmptyPropsRef, writeRef, hne]
  · simp only [createNewIssuePrep, alloc, removeEmptyPropsRef, writeRef]
    omega
  · simp [createNewIssuePrep, alloc, removeEmptyPropsRef, writeRef, hne]

/-- C10 instantiation: the caller's object at reference 0 is untouched. -/
theorem createNewIssuePrep_frame_attestation :
    (createNewIssuePrep 0 sampleStore).2.objs 0 = sampleStore.objs 0 :=
  (createNewIssuePrep_frame sampleStore 0 (by decide)).1
